import Mathlib

/-!
Verification development for the GenericMatcher component
(edsnlp/pipelines/generic/generic.py).

The Python component is shallowly embedded below.  Python dicts are
modelled as insertion-ordered association lists (first binding wins on
lookup); Python string upper() is the character-wise pyUpper below; iteration over a
Python set built from a list is modelled nondeterministically, as an
arbitrary duplicate-free enumeration of the distinct elements, since
CPython sets expose no guaranteed iteration order.  The external
matching engines (PhraseMatcher, FuzzyMatcher, RegexMatcher) are
opaque collaborators: a document carries their per-scope outputs as
function-valued fields, possibly raising (Except).  The overlap
filter, spacy.util.filter_spans, is imported by the source but its
code is not part of this repository snapshot; it is modelled from the
specification (section 4.4), as marked on its definition.
-/

deriving instance DecidableEq for Except

namespace EdsNlp

/-- Reserved key naming the term-matching attribute (generic.py line 14). -/
def TERM_ATTR : String := "term_attr"

/-- System default attribute (generic.py line 15). -/
def DEFAULT_ATTR : String := "NORM"

/-- Model of the Python string method upper(): character-wise
uppercasing over the underlying character list.  The attribute values
and keys concerned are plain ASCII, where Python upper() is exactly
character-wise Char.toUpper. -/
def pyUpper (s : String) : String :=
  ⟨s.data.map Char.toUpper⟩

/-- Generic lookup on an insertion-ordered association list, modelling
Python dict subscript access: the first binding for the key wins. -/
def dictGet? (m : List (String × α)) (k : String) : Option α :=
  match m.find? (fun kv => kv.1 == k) with
  | some kv => some kv.2
  | none => none

/-- Keys of an association-list dict, in insertion order. -/
def dictKeys (m : List (String × α)) : List String :=
  m.map Prod.fst

/-- First-occurrence deduplication.  Used to model the extension of a
Python set from a list: the set holds each element exactly once.  The
particular order produced here (first occurrence) serves as one
canonical enumeration; set iteration itself is modelled as an
arbitrary duplicate-free enumeration. -/
def dedupFirst [DecidableEq α] : List α → List α
  | [] => []
  | x :: xs => x :: (dedupFirst xs).filter (fun y => y != x)

/-- Model of the Python expression set(regex) | set([TERM_ATTR]) as a
duplicate-free key list (generic.py lines 87 and 91).  The resulting
order is irrelevant to every property proved below, which reads the
produced dict only through dictGet?. -/
def setUnionKeys (regexKeys : List String) : List String :=
  dedupFirst regexKeys ++ if TERM_ATTR ∈ regexKeys then [] else [TERM_ATTR]

/-- Attribute argument of the constructor: a bare string or a dict
(generic.py line 49: attr is Union of Dict and str). -/
inductive AttrArg where
  | str (s : String)
  | dict (m : List (String × String))
deriving DecidableEq

/-- Membership of a value in the supported set, modelling the test
vals - set of NORM and TEXT on generic.py line 103. -/
def isSupported (v : String) : Bool :=
  v == "NORM" || v == "TEXT"

/-- Default-filling loop of generic.py lines 91-93: for every key of
the union absent from the dict, append a binding to DEFAULT_ATTR
(Python dict insertion appends at the end). -/
def fillDefaults (ks : List String) (a : List (String × String)) :
    List (String × String) :=
  match ks with
  | [] => a
  | k :: ks =>
    fillDefaults ks (if (dictGet? a k).isSome then a else a ++ [(k, DEFAULT_ATTR)])

/-- Embedding of GenericMatcher prepare attr (generic.py lines 84-110).
The scalar branch (lines 85-88) broadcasts the uppercased value to
every regex key and the reserved term key and returns immediately,
performing no validation.  The dict branch uppercases the values only
(line 90), fills defaults (lines 91-93), and raises ValueError exactly
when some regex key resolves to a value outside NORM/TEXT (lines
102-104); the value of the reserved term key is added to vals only
after that test (line 106) and so is never validated.  The logger
warnings of lines 96-100 and 107-108 are pure logging with no
behavioural effect and are not modelled; the pipe names parameter
feeds only those warnings and is omitted. -/
def prepare_attr (attr : AttrArg) (regexKeys : List String) :
    Except String (List (String × String)) :=
  match attr with
  | .str s =>
    .ok ((setUnionKeys regexKeys).map (fun k => (k, pyUpper s)))
  | .dict m =>
    let a1 := m.map (fun kv => (kv.1, pyUpper kv.2))
    let a2 := fillDefaults (setUnionKeys regexKeys) a1
    if regexKeys.any (fun k => !(isSupported ((dictGet? a2 k).getD ""))) then
      .error "Some attributes in attr are not supported"
    else
      .ok a2

/-- Python value that is either a bare string or a list of strings,
the value type of the terms and regex dict arguments. -/
inductive PyVal where
  | str (s : String)
  | list (l : List String)
deriving DecidableEq

/-- Value coercion of generic.py lines 186-187: a bare string becomes
a one-element list, a list is kept as is. -/
def pyAsList (v : PyVal) : PyVal :=
  match v with
  | .str s => .list [s]
  | .list l => .list l

/-- Content transformation performed by to dict of lists
(generic.py lines 185-187): each bare-string value is replaced by a
one-element list, in place; list values and all keys are untouched. -/
def to_dict_of_lists_content (d : List (String × PyVal)) : List (String × PyVal) :=
  d.map (fun kv => (kv.1, pyAsList kv.2))

/-- The state assembled by the constructor once validation passes:
the coerced term and regex dicts and the resolved attribute map.
The compiled engine objects themselves are external and opaque. -/
structure MatcherState where
  terms : List (String × PyVal)
  regex : List (String × PyVal)
  attr : List (String × String)
deriving DecidableEq

/-- Embedding of the constructor path relevant to validation
(generic.py lines 59-66): coerce terms and regex (a None argument
becomes an empty dict), then resolve the attribute map; a ValueError
raised there propagates before the matcher objects of lines 66-69 are
created, so no state is built.  The in-place aliasing effect of the
coercion is modelled separately by the store-based initRefs below. -/
def initMatcher (terms regex : Option (List (String × PyVal))) (attr : AttrArg) :
    Except String MatcherState :=
  let terms1 := to_dict_of_lists_content (terms.getD [])
  let regex1 := to_dict_of_lists_content (regex.getD [])
  match prepare_attr attr (dictKeys regex1) with
  | .error e => .error e
  | .ok a => .ok { terms := terms1, regex := regex1, attr := a }

/-- Specification-side transformation for comparison: uppercase both
the keys and the values of the attribute mapping, as the specification
(section 4.1) prescribes.  The source uppercases only the values
(generic.py line 90); this definition follows the words of the spec so
the two behaviours can be compared. -/
def specUpperKeysVals (m : List (String × String)) : List (String × String) :=
  m.map (fun kv => (pyUpper kv.1, pyUpper kv.2))

/-- Heap of Python dict objects for the aliasing model: a reference is
an index into the store, allocation appends at the end. -/
abbrev Store := List (List (String × PyVal))

/-- Store-level embedding of to dict of lists (generic.py lines
183-188).  The line d = d or dict() allocates a fresh empty dict when
the argument is None or an empty (falsy) dict; otherwise the very
object passed in is mutated in place, each bare-string value becoming
a one-element list. -/
def to_dict_of_lists_ref (st : Store) (r : Option Nat) : Nat × Store :=
  match r with
  | none => (st.length, st ++ [[]])
  | some i =>
    let d := st[i]?.getD []
    if d = [] then (st.length, st ++ [[]])
    else (i, st.set i (to_dict_of_lists_content d))

/-- Embedding of generic.py lines 59-60: the constructor applies the
coercion first to the terms argument, then to the regex argument,
threading the object store. -/
def initRefs (st : Store) (terms regex : Option Nat) : Nat × Nat × Store :=
  let tr := to_dict_of_lists_ref st terms
  let rr := to_dict_of_lists_ref tr.2 regex
  (tr.1, rr.1, rr.2)

/-- Label carried by a match or span.  PhraseMatcher reports a numeric
vocabulary identifier, FuzzyMatcher reports the label string directly
(generic.py lines 150-152); spacy Span accepts either. -/
inductive MatchId where
  | vocabId (n : Nat)
  | strLabel (s : String)
deriving DecidableEq

/-- Raw match reported by the exact or fuzzy engine: identifier plus a
half-open token range, the first three components of the tuples the
engines yield (generic.py line 150). -/
structure RawMatch where
  mid : MatchId
  start : Nat
  stop : Nat
deriving DecidableEq

/-- Labeled span over the document: a half-open token range plus a
label, the data of spacy Span(doc, start, end, label) relevant here
(the field end is renamed stop, end being a Lean keyword; the document
reference is implicit since each process call works on one document). -/
structure Sp where
  start : Nat
  stop : Nat
  label : MatchId
deriving DecidableEq

/-- Token-range length of a span, the sort key end - start of the
overlap filter. -/
def spanLen (s : Sp) : Nat :=
  s.stop - s.start

/-- Whether a token index lies in the half-open range of a span. -/
def inSpan (s : Sp) (i : Nat) : Prop :=
  s.start ≤ i ∧ i < s.stop

instance (s : Sp) (i : Nat) : Decidable (inSpan s i) := by
  unfold inSpan; infer_instance

/-- Boolean test that two half-open token ranges share a token index. -/
def spansOverlap (a b : Sp) : Bool :=
  max a.start b.start < min a.stop b.stop

/-- Stable insertion of a span into a list sorted by token-range
length descending: the inserted span goes before every strictly
shorter span and after every span of at least its length, so that
equal-length spans keep their input order. -/
def insertByLenDesc (s : Sp) : List Sp → List Sp
  | [] => [s]
  | t :: ts => if spanLen t ≤ spanLen s then s :: t :: ts else t :: insertByLenDesc s ts

/-- Stable sort by token-range length descending, step 1 of the
overlap filter. -/
def sortByLenDesc : List Sp → List Sp
  | [] => []
  | s :: ss => insertByLenDesc s (sortByLenDesc ss)

/-- Greedy acceptance pass, step 2 of the overlap filter: scan the
length-sorted list, keeping a span exactly when it shares no token
index with any span already kept. -/
def greedyAccept (acc : List Sp) : List Sp → List Sp
  | [] => acc
  | s :: rest =>
    if acc.any (fun t => spansOverlap t s) then greedyAccept acc rest
    else greedyAccept (acc ++ [s]) rest

/-- Stable insertion by start index ascending, for the final
presentation re-sort. -/
def insertByStartAsc (s : Sp) : List Sp → List Sp
  | [] => [s]
  | t :: ts => if s.start ≤ t.start then s :: t :: ts else t :: insertByStartAsc s ts

/-- Stable sort by start index ascending, step 3 of the overlap
filter. -/
def sortByStartAsc : List Sp → List Sp
  | [] => []
  | s :: ss => insertByStartAsc s (sortByStartAsc ss)

/-- Modelled from the spec: the overlap filter spacy.util.filter_spans
imported on generic.py line 8 is external library code absent from
this repository snapshot; this definition follows specification
section 4.4 word for word: stable-sort by token-range length
descending, greedily accept spans sharing no token index with an
already accepted span, and return the accepted spans re-sorted to
ascending start order. -/
def filter_spans (spans : List Sp) : List Sp :=
  sortByStartAsc (greedyAccept [] (sortByLenDesc spans))

/-- Construction-time flags of the matcher relevant to process
(generic.py lines 58-62). -/
structure Config where
  fuzzy : Bool
  filter_matches : Bool
  on_ents_only : Bool
deriving DecidableEq

/-- Document as seen by process, with possibly-raising engines.  ents
lists the pre-existing annotations; sentOf maps an annotation to the
identity of the sentence containing it (the value ent.sent); strings
is the vocabulary string store resolving numeric match identifiers;
matcherOutE and regexOutE give the output of the compiled exact/fuzzy
engine and of the regex engine on a scope (none is the whole document,
some sid the sentence with identity sid), or the exception they
raise.  Engine internals are out of scope; only their reported output
matters. -/
structure DocE where
  ents : List Sp
  sentOf : Sp → Nat
  strings : Nat → String
  matcherOutE : Option Nat → Except String (List RawMatch)
  regexOutE : Option Nat → Except String (List Sp)

/-- Label resolution of generic.py lines 151-152: when fuzzy matching
is off the engine is a PhraseMatcher and the numeric identifier is
resolved through the vocabulary string store; when fuzzy matching is
on the identifier is already the label string and is kept as is.  A
string identifier under the non-fuzzy engine cannot occur and is kept
unchanged. -/
def resolveMid (fuzzy : Bool) (strings : Nat → String) (mid : MatchId) : MatchId :=
  if fuzzy then mid
  else
    match mid with
    | .vocabId n => .strLabel (strings n)
    | .strLabel s => .strLabel s

/-- Span construction of generic.py line 153: Span(doc, start, end,
label = resolved identifier). -/
def mkSpan (cfg : Config) (doc : DocE) (m : RawMatch) : Sp :=
  { start := m.start, stop := m.stop, label := resolveMid cfg.fuzzy doc.strings m.mid }

/-- Accumulation loop of generic.py lines 139-141: for each visited
sentence, extend the matches list with the exact/fuzzy engine output
and the regex-matches list with the regex engine output; an engine
exception aborts the loop and propagates. -/
def entLoopE (doc : DocE) : List Nat → List RawMatch × List Sp →
    Except String (List RawMatch × List Sp)
  | [], acc => .ok acc
  | s :: rest, acc => do
    let ms ← doc.matcherOutE (some s)
    let rs ← doc.regexOutE (some s)
    entLoopE doc rest (acc.1 ++ ms, acc.2 ++ rs)

/-- Scope selection and engine runs of generic.py lines 135-145: in
entity-scoped mode iterate the sentence enumeration, otherwise run
both engines once on the whole document (matcher first, regex
second). -/
def gatherE (cfg : Config) (doc : DocE) (sentOrder : List Nat) :
    Except String (List RawMatch × List Sp) :=
  if cfg.on_ents_only then entLoopE doc sentOrder ([], [])
  else do
    let ms ← doc.matcherOutE none
    let rs ← doc.regexOutE none
    .ok (ms, rs)

/-- Optional resolver step of generic.py lines 158-159: apply the
overlap filter exactly when filtering is enabled, otherwise return the
candidate list unchanged. -/
def postFilter (cfg : Config) (spans : List Sp) : List Sp :=
  if cfg.filter_matches then filter_spans spans else spans

/-- Embedding of GenericMatcher.process (generic.py lines 120-161).
The parameter sentOrder is the enumeration produced by iterating the
Python set of sentences on line 139; its admissible values are
constrained by SetEnum below.  Raw matches are converted to spans in
report order (lines 149-154), regex spans are appended after them
(line 156), and the optional filter is applied (lines 158-159). -/
def processE (cfg : Config) (doc : DocE) (sentOrder : List Nat) :
    Except String (List Sp) := do
  let (rawMatches, regex_matches) ← gatherE cfg doc sentOrder
  let spans := rawMatches.map (mkSpan cfg doc) ++ regex_matches
  .ok (postFilter cfg spans)

/-- Admissible enumerations of the Python set built on generic.py line
139 from the sentences of the pre-existing annotations: any
duplicate-free list whose members are exactly the sentences containing
at least one annotation.  CPython guarantees nothing more about set
iteration order. -/
def SetEnum (doc : DocE) (sentOrder : List Nat) : Prop :=
  sentOrder.Nodup ∧ ∀ s, s ∈ sentOrder ↔ ∃ e ∈ doc.ents, doc.sentOf e = s

/-- Discovery order of the annotated sentences: first occurrence while
iterating doc.ents, the order the specification asserts. -/
def sentDiscoveryOrder (doc : DocE) : List Nat :=
  dedupFirst (doc.ents.map doc.sentOf)

/-- Scopes visited by process under a given sentence enumeration: each
enumerated sentence in entity-scoped mode, the whole document
otherwise (generic.py lines 135-145). -/
def scopes (cfg : Config) (sentOrder : List Nat) : List (Option Nat) :=
  if cfg.on_ents_only then sentOrder.map some else [none]

/-- Embedding of GenericMatcher call (generic.py lines 163-181): run
process, then assign the result to doc.ents, replacing every
pre-existing annotation.  The assignment on line 179 executes only
after process has returned, so when process raises the document is
returned untouched alongside the propagated error. -/
def callE (cfg : Config) (doc : DocE) (sentOrder : List Nat) : DocE × Option String :=
  match processE cfg doc sentOrder with
  | .ok spans => ({ doc with ents := spans }, none)
  | .error e => (doc, some e)

/-- Concrete configuration for claim C2: exact matching, overlap
filtering enabled, whole-document scope. -/
def cfgC2 : Config :=
  { fuzzy := false, filter_matches := true, on_ents_only := false }

/-- Concrete document for claim C2: the exact engine reports the spans
T over tokens 3 to 6 and A over tokens 5 to 7, the regex engine the
span B over tokens 6 to 8; A and B have equal length and overlap, and
A precedes B in the concatenated candidate list. -/
def docC2 : DocE where
  ents := []
  sentOf := fun _ => 0
  strings := fun n => if n = 0 then "T" else "A"
  matcherOutE := fun sc =>
    match sc with
    | none => .ok [⟨.vocabId 0, 3, 6⟩, ⟨.vocabId 1, 5, 7⟩]
    | some _ => .ok []
  regexOutE := fun sc =>
    match sc with
    | none => .ok [⟨6, 8, .strLabel "B"⟩]
    | some _ => .ok []

/-- Concrete configuration for claim C3: entity-scoped mode, overlap
filtering disabled. -/
def cfgC3 : Config :=
  { fuzzy := true, filter_matches := false, on_ents_only := true }

/-- Exact/fuzzy engine outputs of the C3 document, per scope. -/
def mOutC3 (sc : Option Nat) : List RawMatch :=
  match sc with
  | some 0 => [⟨.strLabel "m0", 0, 1⟩]
  | some 1 => [⟨.strLabel "m1", 1, 2⟩]
  | _ => []

/-- Regex engine outputs of the C3 document, per scope. -/
def rOutC3 (_sc : Option Nat) : List Sp :=
  []

/-- Concrete document for claim C3: two pre-existing annotations in
two distinct sentences (identified by the start token), the engine
reporting a different match in each sentence. -/
def docC3 : DocE where
  ents := [⟨0, 1, .strLabel "e0"⟩, ⟨1, 2, .strLabel "e1"⟩]
  sentOf := fun e => e.start
  strings := fun _ => ""
  matcherOutE := fun sc => .ok (mOutC3 sc)
  regexOutE := fun sc => .ok (rOutC3 sc)

/-- Concrete configuration for claim C4: overlap filtering enabled,
whole-document scope. -/
def cfgC4 : Config :=
  { fuzzy := true, filter_matches := true, on_ents_only := false }

/-- Concrete document for claim C4, with mutually overlapping
candidates from both engines. -/
def docC4 : DocE where
  ents := []
  sentOf := fun _ => 0
  strings := fun _ => ""
  matcherOutE := fun sc =>
    match sc with
    | none => .ok [⟨.strLabel "A", 0, 3⟩, ⟨.strLabel "B", 1, 3⟩]
    | some _ => .ok []
  regexOutE := fun sc =>
    match sc with
    | none => .ok [⟨2, 5, .strLabel "R"⟩]
    | some _ => .ok []

/-- Concrete configuration for claim C5: entity-scoped mode, overlap
filtering disabled. -/
def cfgC5 : Config :=
  { fuzzy := true, filter_matches := false, on_ents_only := true }

/-- Exact/fuzzy engine outputs of the C5 document, per scope. -/
def mOutC5 (sc : Option Nat) : List RawMatch :=
  match sc with
  | some 0 => [⟨.strLabel "a", 0, 1⟩]
  | some 1 => [⟨.strLabel "b", 2, 3⟩]
  | _ => []

/-- Regex engine outputs of the C5 document, per scope. -/
def rOutC5 (sc : Option Nat) : List Sp :=
  match sc with
  | some 0 => [⟨10, 11, .strLabel "r0"⟩]
  | some 1 => [⟨12, 13, .strLabel "r1"⟩]
  | _ => []

/-- Concrete document for claim C5: two annotated sentences, each with
its own exact and regex matches. -/
def docC5 : DocE where
  ents := [⟨0, 1, .strLabel "x"⟩, ⟨1, 2, .strLabel "y"⟩]
  sentOf := fun e => e.start
  strings := fun _ => ""
  matcherOutE := fun sc => .ok (mOutC5 sc)
  regexOutE := fun sc => .ok (rOutC5 sc)

/-- Concrete configuration for claim C6: entity-scoped mode with
filtering enabled. -/
def cfgC6 : Config :=
  { fuzzy := false, filter_matches := true, on_ents_only := true }

/-- Concrete document for claim C6: no pre-existing annotations, yet
both engines would report matches on the whole document and on any
sentence. -/
def docC6 : DocE where
  ents := []
  sentOf := fun e => e.start
  strings := fun _ => "t"
  matcherOutE := fun _ => .ok [⟨.vocabId 0, 0, 1⟩]
  regexOutE := fun _ => .ok [⟨4, 6, .strLabel "r"⟩]

/-- Concrete configuration for claim C9. -/
def cfgC9 : Config :=
  { fuzzy := false, filter_matches := true, on_ents_only := false }

/-- Concrete document for claim C9 on which processing succeeds; it
carries a pre-existing annotation that the call must discard. -/
def docC9ok : DocE where
  ents := [⟨7, 9, .strLabel "old"⟩]
  sentOf := fun _ => 0
  strings := fun _ => "L"
  matcherOutE := fun sc =>
    match sc with
    | none => .ok [⟨.vocabId 0, 0, 1⟩]
    | some _ => .ok []
  regexOutE := fun _ => .ok []

/-- Concrete document for claim C9 on which the exact engine raises. -/
def docC9err : DocE where
  ents := [⟨7, 9, .strLabel "old"⟩]
  sentOf := fun _ => 0
  strings := fun _ => "L"
  matcherOutE := fun _ => .error "engine failure"
  regexOutE := fun _ => .ok []

/-- Concrete dict contents for claim C10: a dict with one bare-string
value. -/
def dC10a : List (String × PyVal) :=
  [("k", PyVal.str "v")]

/-- Concrete dict contents for claim C10: a dict mixing a list value
and a bare-string value. -/
def dC10b : List (String × PyVal) :=
  [("m", PyVal.list ["a"]), ("n", PyVal.str "w")]

/-- Concrete object store for claim C10, holding the two caller
dicts. -/
def stC10 : Store :=
  [dC10a, dC10b]

/-! Supporting lemmas on dict lookup and default filling. -/

theorem dictGet?_cons (k2 : String) (v : α) (m : List (String × α)) (k : String) :
    dictGet? ((k2, v) :: m) k = if k2 == k then some v else dictGet? m k := by
  unfold dictGet?
  cases h : (k2 == k) with
  | false =>
    rw [List.find?_cons_of_neg]
    · simp [h]
    · simp [h]
  | true =>
    rw [List.find?_cons_of_pos]
    · simp [h]
    · simp [h]

theorem dictGet?_map_value (f : α → β) (m : List (String × α)) (k : String) :
    dictGet? (m.map (fun kv => (kv.1, f kv.2))) k = (dictGet? m k).map f := by
  induction m with
  | nil => rfl
  | cons kv m ih =>
    obtain ⟨k2, v⟩ := kv
    simp only [List.map_cons]
    rw [dictGet?_cons, dictGet?_cons]
    cases h : (k2 == k) <;> simp [h, ih]

theorem dictGet?_append (m1 m2 : List (String × α)) (k : String) :
    dictGet? (m1 ++ m2) k =
      match dictGet? m1 k with
      | some v => some v
      | none => dictGet? m2 k := by
  induction m1 with
  | nil => rfl
  | cons kv m ih =>
    obtain ⟨k2, v⟩ := kv
    simp only [List.cons_append]
    rw [dictGet?_cons, dictGet?_cons]
    cases h : (k2 == k) <;> simp [h, ih]

theorem fillDefaults_cons (k2 : String) (ks : List String) (a : List (String × String)) :
    fillDefaults (k2 :: ks) a =
      fillDefaults ks (if (dictGet? a k2).isSome then a else a ++ [(k2, DEFAULT_ATTR)]) :=
  rfl

theorem fillDefaults_get_some (ks : List String) (a : List (String × String))
    (k v : String) (h : dictGet? a k = some v) :
    dictGet? (fillDefaults ks a) k = some v := by
  induction ks generalizing a with
  | nil => exact h
  | cons k2 ks ih =>
    rw [fillDefaults_cons]
    by_cases h2 : (dictGet? a k2).isSome
    · rw [if_pos h2]
      exact ih a h
    · rw [if_neg h2]
      apply ih
      rw [dictGet?_append, h]

theorem fillDefaults_get_absent (ks : List String) (k : String) :
    ∀ a : List (String × String), k ∈ ks → dictGet? a k = none →
      dictGet? (fillDefaults ks a) k = some DEFAULT_ATTR := by
  induction ks with
  | nil =>
    intro a hk h
    cases hk
  | cons k2 ks ih =>
    intro a hk h
    rw [fillDefaults_cons]
    by_cases hkk : k2 = k
    · subst hkk
      rw [if_neg (by simp [h])]
      apply fillDefaults_get_some
      rw [dictGet?_append, h, dictGet?_cons]
      simp
    · have hk2 : k ∈ ks := by
        cases hk with
        | head => exact absurd rfl hkk
        | tail _ h2 => exact h2
      by_cases h2 : (dictGet? a k2).isSome
      · rw [if_pos h2]
        exact ih a hk2 h
      · rw [if_neg h2]
        apply ih _ hk2
        rw [dictGet?_append, h, dictGet?_cons]
        simp [hkk, dictGet?]

theorem mem_dedupFirst [DecidableEq α] (l : List α) (x : α) :
    x ∈ dedupFirst l ↔ x ∈ l := by
  induction l with
  | nil => simp [dedupFirst]
  | cons y ys ih =>
    by_cases h : x = y
    · simp [dedupFirst, h]
    · simp [dedupFirst, List.mem_filter, ih, h, bne_iff_ne]

theorem mem_setUnionKeys (rks : List String) (k : String) :
    k ∈ setUnionKeys rks ↔ k ∈ rks ∨ k = TERM_ATTR := by
  unfold setUnionKeys
  by_cases h : TERM_ATTR ∈ rks
  · simp only [h, if_true, List.append_nil, mem_dedupFirst]
    constructor
    · exact Or.inl
    · rintro (hk | rfl)
      · exact hk
      · exact h
  · simp [h, mem_dedupFirst]

theorem dictKeys_content (d : List (String × PyVal)) :
    dictKeys (to_dict_of_lists_content d) = dictKeys d := by
  simp [dictKeys, to_dict_of_lists_content]

/-- C1 counterexample: two configurations whose attribute
specification contains the unsupported value FOO (first as a bare
scalar, then as the reserved term key entry of a mapping) for which
construction succeeds and builds full matcher state, contradicting the
claim that any value outside TEXT/NORM raised before construction
completes. -/
theorem attr_value_unvalidated_cases_cex :
    isSupported "FOO" = false ∧
      initMatcher none none (.str "FOO") =
        .ok { terms := [], regex := [], attr := [("term_attr", "FOO")] } ∧
      initMatcher none (some [("pat", .list ["p"])]) (.dict [("term_attr", "FOO")]) =
        .ok { terms := [], regex := [("pat", .list ["p"])],
              attr := [("term_attr", "FOO"), ("pat", "NORM")] } := by
  decide

/-- C1 amended: only the values resolved for regex labels in a
mapping-form attribute specification are validated; when some regex
label is bound in the mapping to a value whose uppercasing is outside
NORM/TEXT, construction raises before any matcher state is built
(scalar values and the reserved term key value are not validated, see
the counterexample). -/
theorem bad_regex_attr_value_aborts_construction
    (terms regex : Option (List (String × PyVal))) (m : List (String × String))
    (k v : String)
    (hk : k ∈ dictKeys (regex.getD []))
    (hv : dictGet? m k = some v)
    (hbad : isSupported (pyUpper v) = false) :
    ∃ e, initMatcher terms regex (.dict m) = .error e := by
  have hkeys : k ∈ dictKeys (to_dict_of_lists_content (regex.getD [])) := by
    rw [dictKeys_content]; exact hk
  have hval : dictGet?
      (fillDefaults (setUnionKeys (dictKeys (to_dict_of_lists_content (regex.getD []))))
        (m.map (fun kv => (kv.1, pyUpper kv.2)))) k = some (pyUpper v) := by
    apply fillDefaults_get_some
    rw [dictGet?_map_value, hv]
    rfl
  have hcond : (dictKeys (to_dict_of_lists_content (regex.getD []))).any
      (fun k2 => !(isSupported ((dictGet?
        (fillDefaults (setUnionKeys (dictKeys (to_dict_of_lists_content (regex.getD []))))
          (m.map (fun kv => (kv.1, pyUpper kv.2)))) k2).getD ""))) = true := by
    rw [List.any_eq_true]
    refine ⟨k, hkeys, ?_⟩
    rw [hval]
    simp [hbad]
  have hpa : prepare_attr (.dict m) (dictKeys (to_dict_of_lists_content (regex.getD []))) =
      .error "Some attributes in attr are not supported" := by
    unfold prepare_attr
    dsimp only
    rw [if_pos hcond]
  refine ⟨"Some attributes in attr are not supported", ?_⟩
  unfold initMatcher
  dsimp only
  rw [hpa]

/-- C1 amended, witness: a mapping binding the regex label pat to FOO
aborts construction. -/
theorem bad_regex_attr_value_aborts_construction_wit :
    ∃ e, initMatcher none (some [("pat", PyVal.str "p")]) (.dict [("pat", "FOO")]) = .error e :=
  bad_regex_attr_value_aborts_construction none (some [("pat", PyVal.str "p")])
    [("pat", "FOO")] "pat" "FOO" (by decide) (by decide) (by decide)

/-- C7: in a mapping-form attribute specification, every regex label
and the reserved term key that is absent from the mapping resolves in
the output attribute map to the system default, which is the
normalized-text attribute NORM. -/
theorem absent_keys_resolve_to_default
    (m : List (String × String)) (rks : List String) (k : String)
    (a : List (String × String))
    (hk : k ∈ rks ∨ k = TERM_ATTR)
    (habs : dictGet? m k = none)
    (hok : prepare_attr (.dict m) rks = .ok a) :
    dictGet? a k = some DEFAULT_ATTR ∧ DEFAULT_ATTR = "NORM" := by
  refine ⟨?_, rfl⟩
  unfold prepare_attr at hok
  dsimp only at hok
  split at hok
  · cases hok
  · injection hok with hok
    subst hok
    apply fillDefaults_get_absent
    · exact (mem_setUnionKeys rks k).mpr hk
    · rw [dictGet?_map_value, habs]
      rfl

/-- C7 witness: with regex label x mapped to TEXT and nothing else,
the reserved term key resolves to the default NORM. -/
theorem absent_keys_resolve_to_default_wit :
    dictGet? [("x", "TEXT"), ("term_attr", "NORM")] "term_attr" = some DEFAULT_ATTR ∧
      DEFAULT_ATTR = "NORM" :=
  absent_keys_resolve_to_default [("x", "TEXT")] ["x"] "term_attr"
    [("x", "TEXT"), ("term_attr", "NORM")] (Or.inr rfl) (by decide) (by decide)

/-- C8 counterexample: the resolver does not uppercase mapping keys.
Uppercasing the keys and values of the mapping (as the claim asserts
happens) changes the result: with regex label dose, the mapping
binding dose to text resolves dose to TEXT, while its
uppercased-key-and-value form binds DOSE (an unknown key, kept but
ignored) and lets dose fall back to the default NORM. -/
theorem keys_not_uppercased_cex :
    specUpperKeysVals [("dose", "text")] = [("DOSE", "TEXT")] ∧
      prepare_attr (.dict (specUpperKeysVals [("dose", "text")])) ["dose"] ≠
        prepare_attr (.dict [("dose", "text")]) ["dose"] ∧
      prepare_attr (.dict [("dose", "text")]) ["dose"] =
        .ok [("dose", "TEXT"), ("term_attr", "NORM")] ∧
      prepare_attr (.dict [("DOSE", "text")]) ["dose"] =
        .ok [("DOSE", "TEXT"), ("dose", "NORM"), ("term_attr", "NORM")] := by
  decide

/-- C8 amended: only the values of a mapping-form attribute
specification are uppercased before default-filling, unknown-key
detection and validation; the keys are left untouched and matched
case-sensitively: any key present in the mapping resolves, in a
successfully built attribute map, to the uppercased form of its
original value. -/
theorem values_uppercased_keys_untouched
    (m : List (String × String)) (rks : List String) (k v : String)
    (a : List (String × String))
    (hv : dictGet? m k = some v)
    (hok : prepare_attr (.dict m) rks = .ok a) :
    dictGet? a k = some (pyUpper v) := by
  unfold prepare_attr at hok
  dsimp only at hok
  split at hok
  · cases hok
  · injection hok with hok
    subst hok
    apply fillDefaults_get_some
    rw [dictGet?_map_value, hv]
    rfl

/-- C8 amended, witness: the lowercase value text of the key dose
resolves to TEXT. -/
theorem values_uppercased_keys_untouched_wit :
    dictGet? [("dose", "TEXT"), ("term_attr", "NORM")] "dose" = some (pyUpper "text") :=
  values_uppercased_keys_untouched [("dose", "text")] ["dose"] "dose" "text"
    [("dose", "TEXT"), ("term_attr", "NORM")] (by decide) (by decide)

/-! Supporting lemmas on the overlap filter. -/

theorem insertByLenDesc_perm (s : Sp) (l : List Sp) :
    (insertByLenDesc s l).Perm (s :: l) := by
  induction l with
  | nil => exact List.Perm.refl _
  | cons t ts ih =>
    unfold insertByLenDesc
    by_cases h : spanLen t ≤ spanLen s
    · rw [if_pos h]
    · rw [if_neg h]
      exact (ih.cons t).trans (List.Perm.swap s t ts)

theorem sortByLenDesc_perm (l : List Sp) : (sortByLenDesc l).Perm l := by
  induction l with
  | nil => exact List.Perm.refl _
  | cons s ss ih =>
    exact (insertByLenDesc_perm s (sortByLenDesc ss)).trans (ih.cons s)

theorem insertByStartAsc_perm (s : Sp) (l : List Sp) :
    (insertByStartAsc s l).Perm (s :: l) := by
  induction l with
  | nil => exact List.Perm.refl _
  | cons t ts ih =>
    unfold insertByStartAsc
    by_cases h : s.start ≤ t.start
    · rw [if_pos h]
    · rw [if_neg h]
      exact (ih.cons t).trans (List.Perm.swap s t ts)

theorem sortByStartAsc_perm (l : List Sp) : (sortByStartAsc l).Perm l := by
  induction l with
  | nil => exact List.Perm.refl _
  | cons s ss ih =>
    exact (insertByStartAsc_perm s (sortByStartAsc ss)).trans (ih.cons s)

theorem spansOverlap_symm (a b : Sp) : spansOverlap a b = spansOverlap b a := by
  unfold spansOverlap
  rw [Nat.max_comm, Nat.min_comm]

theorem greedyAccept_pairwise (l : List Sp) :
    ∀ acc : List Sp, acc.Pairwise (fun x y => spansOverlap x y = false) →
      (greedyAccept acc l).Pairwise (fun x y => spansOverlap x y = false) := by
  induction l with
  | nil =>
    intro acc hacc
    exact hacc
  | cons s rest ih =>
    intro acc hacc
    unfold greedyAccept
    by_cases h : acc.any (fun t => spansOverlap t s)
    · rw [if_pos h]
      exact ih acc hacc
    · rw [if_neg h]
      apply ih
      rw [List.pairwise_append]
      refine ⟨hacc, List.pairwise_singleton _ _, ?_⟩
      intro x hx y hy
      rw [List.mem_singleton] at hy
      subst hy
      have := List.any_eq_false.mp (Bool.of_not_eq_true h) x hx
      exact Bool.of_not_eq_true this

theorem filter_spans_pairwise (l : List Sp) :
    (filter_spans l).Pairwise (fun x y => spansOverlap x y = false) := by
  unfold filter_spans
  have hsymm : ∀ {x y : Sp}, spansOverlap x y = false → spansOverlap y x = false := by
    intro x y h
    rw [spansOverlap_symm]
    exact h
  exact ((sortByStartAsc_perm _).pairwise_iff hsymm).mpr
    (greedyAccept_pairwise _ [] List.Pairwise.nil)

theorem spansOverlap_eq_false_iff (a b : Sp) :
    spansOverlap a b = false ↔ ∀ i, ¬(inSpan a i ∧ inSpan b i) := by
  unfold spansOverlap
  rw [decide_eq_false_iff_not, Nat.max_lt, Nat.lt_min, Nat.lt_min]
  unfold inSpan
  constructor
  · intro h i hi
    obtain ⟨⟨h1, h2⟩, h3, h4⟩ := hi
    exact h (by omega)
  · intro h hlt
    rcases Nat.le_total a.start b.start with hab | hab
    · exact h b.start ⟨⟨hab, by omega⟩, Nat.le_refl _, by omega⟩
    · exact h a.start ⟨⟨Nat.le_refl _, by omega⟩, hab, by omega⟩

theorem filter_insertByLenDesc (s : Sp) (l : List Sp) (n : Nat) :
    (insertByLenDesc s l).filter (fun t => spanLen t == n) =
      if spanLen s == n then s :: l.filter (fun t => spanLen t == n)
      else l.filter (fun t => spanLen t == n) := by
  induction l with
  | nil =>
    unfold insertByLenDesc
    cases h : (spanLen s == n) <;> simp [List.filter, h]
  | cons t ts ih =>
    unfold insertByLenDesc
    by_cases hle : spanLen t ≤ spanLen s
    · rw [if_pos hle]
      cases hs : (spanLen s == n) <;> simp [List.filter_cons, hs]
    · rw [if_neg hle]
      cases hs : (spanLen s == n)
      · rw [List.filter_cons, List.filter_cons]
        cases ht : (spanLen t == n) <;> simp [ht, ih, hs]
      · have hsn : spanLen s = n := by
          simpa using hs
        have htn : (spanLen t == n) = false := by
          simp only [beq_eq_false_iff_ne, ne_eq]
          omega
        rw [List.filter_cons, List.filter_cons]
        simp [htn, ih, hs]

theorem sortByLenDesc_stable (l : List Sp) (n : Nat) :
    (sortByLenDesc l).filter (fun t => spanLen t == n) =
      l.filter (fun t => spanLen t == n) := by
  induction l with
  | nil => rfl
  | cons s ss ih =>
    unfold sortByLenDesc
    rw [filter_insertByLenDesc, List.filter_cons]
    cases hs : (spanLen s == n) <;> simp [hs, ih]

/-- C2 counterexample: with filtering enabled, the exact engine
reporting T (tokens 3 to 6) then A (tokens 5 to 7) and the regex
engine reporting B (tokens 6 to 8), the candidate spans A and B have
equal length, overlap, and A precedes B in the concatenated candidate
list; yet the filter keeps B and rejects A (T knocks A out first), so
the pair is not resolved in favour of the earlier span. -/
theorem equal_length_pair_later_accepted_cex :
    spanLen ⟨5, 7, .strLabel "A"⟩ = spanLen ⟨6, 8, .strLabel "B"⟩ ∧
      spansOverlap ⟨5, 7, .strLabel "A"⟩ ⟨6, 8, .strLabel "B"⟩ = true ∧
      processE cfgC2 docC2 [] =
        .ok [⟨3, 6, .strLabel "T"⟩, ⟨6, 8, .strLabel "B"⟩] ∧
      (⟨5, 7, .strLabel "A"⟩ : Sp) ∉ [(⟨3, 6, .strLabel "T"⟩ : Sp), ⟨6, 8, .strLabel "B"⟩] := by
  decide

/-- C2 amended: the length-descending sort used by the filter is
stable (spans of equal token-range length retain their input order),
and on a candidate list consisting exactly of two overlapping spans of
equal length the filter accepts the earlier and rejects the later; in
the presence of other candidates the later of such a pair can be
accepted when the earlier was already rejected by a longer accepted
span (see the counterexample). -/
theorem filter_sort_stable_and_prefers_earlier :
    (∀ (l : List Sp) (n : Nat),
      (sortByLenDesc l).filter (fun t => spanLen t == n) =
        l.filter (fun t => spanLen t == n)) ∧
    (∀ a b : Sp, spanLen a = spanLen b → spansOverlap a b = true →
      filter_spans [a, b] = [a]) := by
  refine ⟨sortByLenDesc_stable, ?_⟩
  intro a b hlen hov
  have hble : spanLen b ≤ spanLen a := Nat.le_of_eq hlen.symm
  simp [filter_spans, sortByLenDesc, insertByLenDesc, hble, greedyAccept, hov,
    sortByStartAsc, insertByStartAsc]

/-- C2 amended, witness: the stable-sort equation at a concrete list
and the two-span tie-break at a concrete overlapping pair of length
two. -/
theorem filter_sort_stable_and_prefers_earlier_wit :
    ((sortByLenDesc [⟨1, 3, .strLabel "A"⟩, ⟨2, 4, .strLabel "B"⟩]).filter
        (fun t => spanLen t == 2) =
      ([⟨1, 3, .strLabel "A"⟩, ⟨2, 4, .strLabel "B"⟩] : List Sp).filter
        (fun t => spanLen t == 2)) ∧
    filter_spans [⟨1, 3, .strLabel "A"⟩, ⟨2, 4, .strLabel "B"⟩] = [⟨1, 3, .strLabel "A"⟩] :=
  ⟨filter_sort_stable_and_prefers_earlier.1 [⟨1, 3, .strLabel "A"⟩, ⟨2, 4, .strLabel "B"⟩] 2,
    filter_sort_stable_and_prefers_earlier.2 ⟨1, 3, .strLabel "A"⟩ ⟨2, 4, .strLabel "B"⟩
      (by decide) (by decide)⟩

/-! Supporting lemmas on the process embedding. -/

theorem postFilter_nil (cfg : Config) : postFilter cfg [] = [] := by
  unfold postFilter
  split <;> rfl

theorem entLoopE_ok (doc : DocE) (mOut : Option Nat → List RawMatch)
    (rOut : Option Nat → List Sp)
    (hm : ∀ sc, doc.matcherOutE sc = .ok (mOut sc))
    (hr : ∀ sc, doc.regexOutE sc = .ok (rOut sc)) :
    ∀ (order : List Nat) (acc : List RawMatch × List Sp),
      entLoopE doc order acc =
        .ok (acc.1 ++ order.flatMap (fun s => mOut (some s)),
             acc.2 ++ order.flatMap (fun s => rOut (some s))) := by
  intro order
  induction order with
  | nil =>
    intro acc
    simp [entLoopE]
  | cons s rest ih =>
    intro acc
    unfold entLoopE
    rw [hm (some s), hr (some s)]
    show entLoopE doc rest (acc.1 ++ mOut (some s), acc.2 ++ rOut (some s)) = _
    rw [ih]
    simp [List.flatMap_cons, List.append_assoc]

theorem processE_ok_all_engines (cfg : Config) (doc : DocE) (order : List Nat)
    (mOut : Option Nat → List RawMatch) (rOut : Option Nat → List Sp)
    (hm : ∀ sc, doc.matcherOutE sc = .ok (mOut sc))
    (hr : ∀ sc, doc.regexOutE sc = .ok (rOut sc)) :
    processE cfg doc order =
      .ok (postFilter cfg ((((scopes cfg order).flatMap mOut).map (mkSpan cfg doc)) ++
        (scopes cfg order).flatMap rOut)) := by
  unfold processE gatherE scopes
  cases ho : cfg.on_ents_only
  · rw [if_neg (by simp [ho]), if_neg (by simp [ho])]
    rw [hm none, hr none]
    show Except.ok (postFilter cfg ((mOut none).map (mkSpan cfg doc) ++ rOut none)) = _
    simp
  · rw [if_pos (by simp [ho]), if_pos (by simp [ho])]
    rw [entLoopE_ok doc mOut rOut hm hr order ([], [])]
    show Except.ok (postFilter cfg (_ ++ _)) = _
    have hflat1 : (order.map some).flatMap mOut = order.flatMap (fun s => mOut (some s)) := by
      rw [List.flatMap_map]
    have hflat2 : (order.map some).flatMap rOut = order.flatMap (fun s => rOut (some s)) := by
      rw [List.flatMap_map]
    simp [hflat1, hflat2]

theorem processE_ok_shape (cfg : Config) (doc : DocE) (order : List Nat)
    (spans : List Sp) (hok : processE cfg doc order = .ok spans) :
    ∃ cand, spans = postFilter cfg cand := by
  unfold processE at hok
  cases hg : gatherE cfg doc order with
  | error e =>
    rw [hg] at hok
    cases hok
  | ok pr =>
    rw [hg] at hok
    obtain ⟨ms, rs⟩ := pr
    injection hok with hok
    exact ⟨ms.map (mkSpan cfg doc) ++ rs, hok.symm⟩

/-- C3 counterexample: entity-scoped scanning iterates a Python set of
sentences, whose iteration order is not the discovery order.  On a
document with two annotated sentences, the enumeration visiting
sentence 1 before sentence 0 is an admissible set enumeration, and the
accumulated output under it differs from the output accumulated in
discovery order, refuting the claim that matches are accumulated in
the order the sentences were discovered. -/
theorem sentence_order_not_discovery_cex :
    SetEnum docC3 [1, 0] ∧ sentDiscoveryOrder docC3 = [0, 1] ∧
      processE cfgC3 docC3 [1, 0] ≠ processE cfgC3 docC3 (sentDiscoveryOrder docC3) := by
  refine ⟨⟨by decide, ?_⟩, by decide, by decide⟩
  intro s
  show s ∈ [1, 0] ↔ ∃ e ∈ docC3.ents, docC3.sentOf e = s
  simp [docC3]
  omega

/-- C3 amended: in entity-scoped mode, under any admissible
enumeration of the sentence set, the enumeration is duplicate-free and
its members are exactly the sentences containing at least one
pre-existing annotation (so each such sentence is scanned exactly
once, however many annotations it contains), and the matches are
accumulated sentence by sentence in the enumeration order — which is
the unspecified iteration order of the set, not necessarily the
discovery order (see the counterexample). -/
theorem entity_scope_scans_each_sentence_once
    (cfg : Config) (doc : DocE) (order : List Nat)
    (mOut : Option Nat → List RawMatch) (rOut : Option Nat → List Sp)
    (ho : cfg.on_ents_only = true)
    (henum : SetEnum doc order)
    (hm : ∀ sc, doc.matcherOutE sc = .ok (mOut sc))
    (hr : ∀ sc, doc.regexOutE sc = .ok (rOut sc)) :
    order.Nodup ∧
    (∀ s, s ∈ order ↔ ∃ e ∈ doc.ents, doc.sentOf e = s) ∧
    processE cfg doc order =
      .ok (postFilter cfg (((order.flatMap (fun s => mOut (some s))).map (mkSpan cfg doc)) ++
        order.flatMap (fun s => rOut (some s)))) := by
  refine ⟨henum.1, henum.2, ?_⟩
  rw [processE_ok_all_engines cfg doc order mOut rOut hm hr]
  unfold scopes
  rw [if_pos ho]
  have hflat1 : (order.map some).flatMap mOut = order.flatMap (fun s => mOut (some s)) := by
    rw [List.flatMap_map]
  have hflat2 : (order.map some).flatMap rOut = order.flatMap (fun s => rOut (some s)) := by
    rw [List.flatMap_map]
  rw [hflat1, hflat2]

/-- C3 amended, witness: the scan structure at the concrete document
docC3 under the admissible enumeration visiting sentence 1 first. -/
theorem entity_scope_scans_each_sentence_once_wit :
    ([1, 0] : List Nat).Nodup ∧
    (∀ s, s ∈ ([1, 0] : List Nat) ↔ ∃ e ∈ docC3.ents, docC3.sentOf e = s) ∧
    processE cfgC3 docC3 [1, 0] =
      .ok (postFilter cfgC3
        (((([1, 0] : List Nat).flatMap (fun s => mOutC3 (some s))).map (mkSpan cfgC3 docC3)) ++
          ([1, 0] : List Nat).flatMap (fun s => rOutC3 (some s)))) :=
  entity_scope_scans_each_sentence_once cfgC3 docC3 [1, 0] mOutC3 rOutC3 rfl
    ⟨by decide, by
      intro s
      show s ∈ [1, 0] ↔ ∃ e ∈ docC3.ents, docC3.sentOf e = s
      simp [docC3]
      omega⟩
    (fun _ => rfl) (fun _ => rfl)

/-- C4: with overlap filtering enabled, any span list successfully
returned by process is pairwise non-overlapping: no token index lies
in the half-open token ranges of two distinct returned spans. -/
theorem filter_enabled_output_nonoverlapping
    (cfg : Config) (doc : DocE) (order : List Nat) (spans : List Sp)
    (hf : cfg.filter_matches = true)
    (hok : processE cfg doc order = .ok spans) :
    spans.Pairwise (fun a b => ∀ i, ¬(inSpan a i ∧ inSpan b i)) := by
  obtain ⟨cand, hcand⟩ := processE_ok_shape cfg doc order spans hok
  subst hcand
  unfold postFilter
  rw [if_pos hf]
  exact (filter_spans_pairwise cand).imp
    (fun h => (spansOverlap_eq_false_iff _ _).mp h)

/-- C4 witness: the filtered output of the concrete document docC4 is
pairwise non-overlapping. -/
theorem filter_enabled_output_nonoverlapping_wit :
    ([⟨0, 3, .strLabel "A"⟩] : List Sp).Pairwise
      (fun a b => ∀ i, ¬(inSpan a i ∧ inSpan b i)) :=
  filter_enabled_output_nonoverlapping cfgC4 docC4 [] [⟨0, 3, .strLabel "A"⟩] rfl (by decide)

/-- C5 counterexample: with filtering disabled and entity-scoped mode,
the output under the admissible set enumeration visiting sentence 1
before sentence 0 is not the concatenation taken in discovery order,
refuting the claim that the output equals the discovery-order
concatenation for every document. -/
theorem concat_not_in_discovery_order_cex :
    SetEnum docC5 [1, 0] ∧ sentDiscoveryOrder docC5 = [0, 1] ∧
      processE cfgC5 docC5 [1, 0] ≠
        .ok (((((sentDiscoveryOrder docC5).flatMap (fun s => mOutC5 (some s))).map
            (mkSpan cfgC5 docC5)) ++
          (sentDiscoveryOrder docC5).flatMap (fun s => rOutC5 (some s)))) := by
  refine ⟨⟨by decide, ?_⟩, by decide, by decide⟩
  intro s
  show s ∈ [1, 0] ↔ ∃ e ∈ docC5.ents, docC5.sentOf e = s
  simp [docC5]
  omega

/-- C5 amended: with overlap filtering disabled, the list returned by
process equals exactly the concatenation of all exact/fuzzy-derived
spans (in engine-report order, scopes in the order of the set
enumeration actually iterated) followed by all regex-derived spans
(same ordering rule); the resolver step is the identity.  The scope
order is the unspecified set-iteration order, not necessarily
discovery order (see the counterexample). -/
theorem filter_disabled_output_is_concat
    (cfg : Config) (doc : DocE) (order : List Nat)
    (mOut : Option Nat → List RawMatch) (rOut : Option Nat → List Sp)
    (hf : cfg.filter_matches = false)
    (hm : ∀ sc, doc.matcherOutE sc = .ok (mOut sc))
    (hr : ∀ sc, doc.regexOutE sc = .ok (rOut sc)) :
    processE cfg doc order =
      .ok ((((scopes cfg order).flatMap mOut).map (mkSpan cfg doc)) ++
        (scopes cfg order).flatMap rOut) := by
  rw [processE_ok_all_engines cfg doc order mOut rOut hm hr]
  unfold postFilter
  rw [if_neg (by simp [hf])]

/-- C5 amended, witness: the concatenation shape at the concrete
document docC5 under the enumeration visiting sentence 1 first. -/
theorem filter_disabled_output_is_concat_wit :
    processE cfgC5 docC5 [1, 0] =
      .ok ((((scopes cfgC5 [1, 0]).flatMap mOutC5).map (mkSpan cfgC5 docC5)) ++
        (scopes cfgC5 [1, 0]).flatMap rOutC5) :=
  filter_disabled_output_is_concat cfgC5 docC5 [1, 0] mOutC5 rOutC5 rfl
    (fun _ => rfl) (fun _ => rfl)

/-- C6: with entity-scope restriction enabled, a document whose
pre-existing annotation list is empty yields the empty span list under
every admissible set enumeration, whatever the engines would report on
the whole document or on any sentence. -/
theorem entity_scope_empty_ents_empty_output
    (cfg : Config) (doc : DocE) (order : List Nat)
    (ho : cfg.on_ents_only = true)
    (hents : doc.ents = [])
    (henum : SetEnum doc order) :
    processE cfg doc order = .ok [] := by
  have horder : order = [] := by
    rw [List.eq_nil_iff_forall_not_mem]
    intro s hs
    obtain ⟨e, he, _⟩ := (henum.2 s).mp hs
    rw [hents] at he
    cases he
  subst horder
  unfold processE gatherE
  rw [if_pos (by simp [ho])]
  show Except.ok (postFilter cfg ((([] : List RawMatch).map (mkSpan cfg doc)) ++ [])) = _
  simp [postFilter_nil]

/-- C6 witness: the concrete document docC6 has no annotations but
engines that would report matches everywhere; entity-scoped process
still returns the empty list. -/
theorem entity_scope_empty_ents_empty_output_wit :
    processE cfgC6 docC6 [] = .ok [] :=
  entity_scope_empty_ents_empty_output cfgC6 docC6 [] rfl rfl
    ⟨List.nodup_nil, by intro s; simp [docC6]⟩

/-- C9: the call interface overwrites the entire annotation list of
the document with exactly the spans produced by process (discarding
all previously present annotations), and it is atomic: when process
raises, the document is returned unchanged alongside the propagated
error, no partial write having occurred. -/
theorem call_overwrites_ents_or_leaves_doc_unchanged
    (cfg : Config) (doc : DocE) (order : List Nat) :
    (∀ spans, processE cfg doc order = .ok spans →
      callE cfg doc order = ({ doc with ents := spans }, none)) ∧
    (∀ e, processE cfg doc order = .error e →
      callE cfg doc order = (doc, some e)) := by
  constructor
  · intro spans h
    unfold callE
    rw [h]
  · intro e h
    unfold callE
    rw [h]

/-- C9 witness: on the concrete succeeding document the call replaces
the old annotation with the processed span; on the concrete raising
document the call returns the document unchanged with the engine
error. -/
theorem call_overwrites_ents_or_leaves_doc_unchanged_wit :
    callE cfgC9 docC9ok [] = ({ docC9ok with ents := [⟨0, 1, .strLabel "L"⟩] }, none) ∧
    callE cfgC9 docC9err [] = (docC9err, some "engine failure") :=
  ⟨(call_overwrites_ents_or_leaves_doc_unchanged cfgC9 docC9ok []).1
      [⟨0, 1, .strLabel "L"⟩] (by decide),
    (call_overwrites_ents_or_leaves_doc_unchanged cfgC9 docC9err []).2
      "engine failure" (by decide)⟩

/-! Supporting lemmas on the aliasing model. -/

theorem dictGet?_content (d : List (String × PyVal)) (k : String) :
    dictGet? (to_dict_of_lists_content d) k = (dictGet? d k).map pyAsList :=
  dictGet?_map_value pyAsList d k

/-- C10: constructing the matcher mutates the caller-supplied terms
and regex dictionaries in place: when both arguments are nonempty dict
objects, the constructor returns the very same references it was
given, with the stored contents transformed so that every bare-string
value is replaced by a one-element list (keys and list values
untouched); and when both arguments are None, two fresh empty dicts
are allocated without touching any existing object. -/
theorem construction_mutates_caller_dicts :
    (∀ (st : Store) (i j : Nat) (di dj : List (String × PyVal)),
      i ≠ j → st[i]? = some di → st[j]? = some dj → di ≠ [] → dj ≠ [] →
      initRefs st (some i) (some j) =
        (i, j, (st.set i (to_dict_of_lists_content di)).set j (to_dict_of_lists_content dj)) ∧
      ((st.set i (to_dict_of_lists_content di)).set j (to_dict_of_lists_content dj))[i]? =
        some (to_dict_of_lists_content di) ∧
      ((st.set i (to_dict_of_lists_content di)).set j (to_dict_of_lists_content dj))[j]? =
        some (to_dict_of_lists_content dj) ∧
      (∀ k s, dictGet? di k = some (.str s) →
        dictGet? (to_dict_of_lists_content di) k = some (.list [s]))) ∧
    (∀ st : Store,
      initRefs st none none = (st.length, st.length + 1, st ++ [[], []]) ∧
      (st ++ [[], []])[st.length]? = some [] ∧
      (st ++ [[], []])[st.length + 1]? = some [] ∧
      ∀ n, n < st.length → (st ++ [[], []])[n]? = st[n]?) := by
  constructor
  · intro st i j di dj hij hi hj hdi hdj
    have hilen : i < st.length := (List.getElem?_eq_some_iff.mp hi).1
    have hjlen : j < st.length := (List.getElem?_eq_some_iff.mp hj).1
    have hstep1 : to_dict_of_lists_ref st (some i) =
        (i, st.set i (to_dict_of_lists_content di)) := by
      unfold to_dict_of_lists_ref
      dsimp only
      rw [hi]
      simp [hdi]
    have hj2 : (st.set i (to_dict_of_lists_content di))[j]? = some dj := by
      rw [List.getElem?_set]
      simp [hij, hj]
    have hstep2 : to_dict_of_lists_ref (st.set i (to_dict_of_lists_content di)) (some j) =
        (j, (st.set i (to_dict_of_lists_content di)).set j (to_dict_of_lists_content dj)) := by
      unfold to_dict_of_lists_ref
      dsimp only
      rw [hj2]
      simp [hdj]
    refine ⟨?_, ?_, ?_, ?_⟩
    · simp only [initRefs, hstep1, hstep2]
    · rw [List.getElem?_set]
      simp only [if_neg (Ne.symm hij)]
      rw [List.getElem?_set]
      simp [hilen]
    · rw [List.getElem?_set]
      simp [List.length_set, hjlen]
    · intro k s hks
      rw [dictGet?_content, hks]
      rfl
  · intro st
    have hstep1 : to_dict_of_lists_ref st none = (st.length, st ++ [[]]) := rfl
    have hstep2 : to_dict_of_lists_ref (st ++ [[]]) none =
        ((st ++ [[]]).length, st ++ [[]] ++ [[]]) := rfl
    refine ⟨?_, ?_, ?_, ?_⟩
    · simp only [initRefs, hstep1, hstep2]
      simp [List.append_assoc]
    · rw [show st ++ [[], []] = (st ++ [[]]) ++ [[]] from by simp]
      rw [List.getElem?_append_left (by simp)]
      exact List.getElem?_concat_length st []
    · rw [show st ++ [[], []] = (st ++ [[]]) ++ [[]] from by simp]
      rw [show st.length + 1 = (st ++ [[]]).length from by simp]
      exact List.getElem?_concat_length (st ++ [[]]) []
    · intro n hn
      exact List.getElem?_append_left (by omega)

/-- C10 witness: a concrete two-object store in which the constructor
rewrites both caller dicts in place. -/
theorem construction_mutates_caller_dicts_wit :
    initRefs stC10 (some 0) (some 1) =
        (0, 1, (stC10.set 0 (to_dict_of_lists_content dC10a)).set 1
          (to_dict_of_lists_content dC10b)) ∧
      ((stC10.set 0 (to_dict_of_lists_content dC10a)).set 1
          (to_dict_of_lists_content dC10b))[0]? = some (to_dict_of_lists_content dC10a) ∧
      ((stC10.set 0 (to_dict_of_lists_content dC10a)).set 1
          (to_dict_of_lists_content dC10b))[1]? = some (to_dict_of_lists_content dC10b) ∧
      (∀ k s, dictGet? dC10a k = some (.str s) →
        dictGet? (to_dict_of_lists_content dC10a) k = some (.list [s])) :=
  construction_mutates_caller_dicts.1 stC10 0 1 dC10a dC10b
    (by decide) (by decide) (by decide) (by decide) (by decide)

end EdsNlp
